import Mathlib

/-!
Verification development for `dfx-proxy` (`src/index.ts`).

The TypeScript source is shallowly embedded below:

* JavaScript strings are Lean `String`s; where character-level reasoning is
  needed (`String.prototype.split`) we work on `String.data : List Char`.
* JavaScript objects used as records (`Record<string, T>`) are embedded as
  association lists `List (String × T)` with JavaScript assignment semantics
  (`recSet`: update in place, append when the key is new) and first-match
  lookup (`recGet`).  Iteration (`for .. in`) is list order, which models the
  insertion order JavaScript guarantees for the non-numeric string keys this
  program uses.
* JavaScript numbers produced by `parseInt` are embedded as `Int` (the ports
  this program handles are small integers, far from any double rounding).
* The mutable argument array that `parseArgs` destructively `splice`s is
  embedded by explicit state passing: each pass returns the array state next
  to its result, so the pair component models the caller's array object after
  the call.
* `process.exit(1)` after printing a message is embedded as `Except.error`
  of that message (respectively as `MainOutcome.fatalExit`); `process.exit 0`
  for `--help` as `MainOutcome.helpExit`.
* File system reads are outside the embedding: `main` receives the parsed
  contents of the canister-ids file (`fileTable`) as a parameter, standing
  for a successful `readFileSync` + `JSON.parse` of a JSON object whose
  values may carry a string field `local`.
-/

deriving instance DecidableEq for Except

/-- JavaScript record lookup `m[k]`: first entry with the given key,
`none` for `undefined`. -/
def recGet (k : String) : List (String × α) → Option α
  | [] => none
  | (k', v) :: t => if k' = k then some v else recGet k t

/-- JavaScript record assignment `m[k] = v`: update the existing entry in
place, otherwise append the new entry (insertion order). -/
def recSet (k : String) (v : α) : List (String × α) → List (String × α)
  | [] => [(k, v)]
  | (k', v') :: t => if k' = k then (k, v) :: t else (k', v') :: recSet k v t

/-- JavaScript `Array.prototype.indexOf` (restricted to the string arrays the
program scans): index of the first occurrence, `none` for `-1`. -/
def jsIndexOf (x : String) : List String → Option Nat
  | [] => none
  | y :: t => if y = x then some 0 else (jsIndexOf x t).map (· + 1)

/-- JavaScript `String.prototype.split(sep)` for a one-character separator:
splits on every occurrence, keeping empty segments. -/
def splitOnChar (sep : Char) : List Char → List (List Char)
  | [] => [[]]
  | c :: cs =>
    if c = sep then [] :: splitOnChar sep cs
    else
      match splitOnChar sep cs with
      | [] => [[c]]
      | h :: t => (c :: h) :: t

/-- Whitespace skipped by JavaScript `parseInt` (the forms relevant here). -/
def isJsSpace (c : Char) : Bool :=
  c = ' ' || c = '\t' || c = '\n' || c = '\r' || c = '\x0b' || c = '\x0c'

/-- Hexadecimal digit test for the `0x` branch of `parseInt`. -/
def isHexDigitChar (c : Char) : Bool :=
  c.isDigit || ('a' ≤ c && c ≤ 'f') || ('A' ≤ c && c ≤ 'F')

/-- Numeric value of a decimal digit character. -/
def digitVal (c : Char) : Nat := c.toNat - 48

/-- Numeric value of a hexadecimal digit character. -/
def hexVal (c : Char) : Nat :=
  if c.isDigit then c.toNat - 48
  else if 'a' ≤ c then c.toNat - 87
  else c.toNat - 55

/-- Value of a digit string in the given base, most significant first. -/
def natOfDigits (base : Nat) (val : Char → Nat) (ds : List Char) : Nat :=
  ds.foldl (fun a c => a * base + val c) 0

/-- JavaScript `parseInt(s)` with no radix argument: skip leading whitespace,
read an optional sign, auto-detect base 16 on a `0x`/`0X` prefix, then read
the longest digit prefix, ignoring any trailing characters; `none` models
`NaN` (no digits could be read). -/
def parseIntJS (s : String) : Option Int :=
  let cs := s.data.dropWhile isJsSpace
  let signed : Int × List Char :=
    match cs with
    | '-' :: t => (-1, t)
    | '+' :: t => (1, t)
    | _ => (1, cs)
  let sign := signed.1
  match signed.2 with
  | '0' :: c :: t =>
    if c = 'x' ∨ c = 'X' then
      let ds := t.takeWhile isHexDigitChar
      if ds = [] then none else some (sign * (natOfDigits 16 hexVal ds : Nat))
    else
      some (sign * (natOfDigits 10 digitVal (('0' :: c :: t).takeWhile Char.isDigit) : Nat))
  | rest =>
    let ds := rest.takeWhile Char.isDigit
    if ds = [] then none else some (sign * (natOfDigits 10 digitVal ds : Nat))

/-- One `--by-id` / `--by-name` value (`src/index.ts` lines 114-127): split on
`:`, require exactly two segments, parse the second with `parseInt`. -/
def parseBinding (arg : String) : Except String (String × Int) :=
  match splitOnChar ':' arg.data with
  | [canister, portStr] =>
    match parseIntJS (String.mk portStr) with
    | some port => .ok (String.mk canister, port)
    | none => .error ("Could not parse port '" ++ String.mk portStr ++ "' as number")
  | _ => .error ("Could not parse '" ++ arg ++ "'")

/-- Loop body of `parseCanisterToPort` (`src/index.ts` lines 96-132): while
`args.indexOf(param)` succeeds, `splice` out the flag and its value and parse
the value; the fuel argument only bounds the iteration count (each iteration
removes two array elements, so `args.length` fuel is never exhausted) and the
returned list is the array state after the destructive splices. -/
def parseCanisterToPortAux (param : String) :
    Nat → List String → List (String × Int) →
    Except String (List (String × Int)) × List String
  | 0, args, acc =>
    match jsIndexOf param args with
    | none => (.ok acc, args)
    | some _ => (.error "out of fuel", args)
  | fuel + 1, args, acc =>
    match jsIndexOf param args with
    | none => (.ok acc, args)
    | some i =>
      match (args.drop i).take 2 with
      | [_, arg] =>
        match parseBinding arg with
        | .ok (c, p) =>
          parseCanisterToPortAux param fuel (args.take i ++ args.drop (i + 2))
            (recSet c p acc)
        | .error e => (.error e, args.take i ++ args.drop (i + 2))
      | _ => (.error ("No value for " ++ param), args.take i ++ args.drop (i + 2))

/-- `parseCanisterToPort` (`src/index.ts` lines 96-132), with the array state
returned next to the result. -/
def parseCanisterToPortSt (param : String) (args : List String)
    (acc : List (String × Int)) :
    Except String (List (String × Int)) × List String :=
  parseCanisterToPortAux param args.length args acc

/-- Removal of a `--flag value` pair (`src/index.ts` lines 33-41 and 44-52):
`indexOf` then `splice(index, 2)`; an error when the flag is the last token. -/
def stripOptSt (flag : String) (args : List String) :
    Except String (Option String) × List String :=
  match jsIndexOf flag args with
  | none => (.ok none, args)
  | some i =>
    match (args.drop i).take 2 with
    | [_, v] => (.ok (some v), args.take i ++ args.drop (i + 2))
    | _ => (.error ("No value for " ++ flag), args.take i ++ args.drop (i + 2))

/-- The `Config` interface (`src/index.ts` lines 13-19). -/
structure Config where
  replicaHost : Option String
  canisterIdsFile : Option String
  canisterIdToPort : List (String × Int)
  canisterNameToPort : List (String × Int)
  canisterNameToId : List (String × String)
deriving DecidableEq, Repr

/-- `parseArgs` (`src/index.ts` lines 27-81) with the final array state
returned next to the result: strip `--replica-host`, strip
`--canister-ids-file`, consume all `--by-id` then all `--by-name` pairs, and
reject any leftover tokens. -/
def parseArgsSt (args : List String) : Except String Config × List String :=
  match stripOptSt "--replica-host" args with
  | (.error e, args) => (.error e, args)
  | (.ok replicaHost, args) =>
    match stripOptSt "--canister-ids-file" args with
    | (.error e, args) => (.error e, args)
    | (.ok canisterIdsFile, args) =>
      match parseCanisterToPortSt "--by-id" args [] with
      | (.error e, args) => (.error e, args)
      | (.ok canisterIdToPort, args) =>
        match parseCanisterToPortSt "--by-name" args [] with
        | (.error e, args) => (.error e, args)
        | (.ok canisterNameToPort, args) =>
          if args.length ≠ 0 then
            (.error ("Error: Don't know what to do with " ++ toString args.length
              ++ " argument(s): " ++ String.intercalate "," args), args)
          else
            (.ok { replicaHost, canisterIdsFile, canisterIdToPort,
                   canisterNameToPort, canisterNameToId := [] }, args)

/-- `parseArgs` as the caller observes the return value. -/
def parseArgs (args : List String) : Except String Config :=
  (parseArgsSt args).1

/-- `getConfig` (`src/index.ts` lines 22-25) simply forwards to `parseArgs`
on the same (aliased, not copied) array. -/
def getConfig (origArgs : List String) : Except String Config :=
  parseArgs origArgs

/-- JavaScript truthiness of `canisterIdToPort[canisterId]`: `undefined` and
`0` are falsy. -/
def truthyOptInt : Option Int → Bool
  | none => false
  | some n => n != 0

/-- JavaScript truthiness of an optional string (`replicaHost`,
`canisterIdsFile`, `canisterNameToId[name]`): `undefined` and `""` are falsy. -/
def truthyOptStr : Option String → Bool
  | none => false
  | some s => s != ""

/-- The canister-ids file loop (`src/index.ts` lines 242-247): for each entry
of the parsed JSON object, record `values[name].local` when it is truthy. -/
def buildNameToId (fileTable : List (String × Option String))
    (acc : List (String × String)) : List (String × String) :=
  match fileTable with
  | [] => acc
  | (name, localId) :: rest =>
    match localId with
    | some cid =>
      if cid ≠ "" then buildNameToId rest (recSet name cid acc)
      else buildNameToId rest acc
    | none => buildNameToId rest acc

/-- Message of `src/index.ts` lines 261-263. -/
def noIdMsg (canisterName : String) (canisterPort : Int) : String :=
  "No canister ID for canister name '" ++ canisterName ++ "' when trying to proxy '"
    ++ canisterName ++ "' to port " ++ toString canisterPort

/-- Message of `src/index.ts` lines 269-271. -/
def conflictMsg (canisterName : String) (canisterPort : Int)
    (canisterId : String) (existingPort : Int) : String :=
  "Asking to forward canister '" ++ canisterName ++ "' (name) to port "
    ++ toString canisterPort ++ " but '" ++ canisterName ++ "' is '" ++ canisterId
    ++ "' (ID) and is already forwarded to port " ++ toString existingPort

/-- The name-resolution loop of `main` (`src/index.ts` lines 256-277): for
each name-keyed binding, look its name up, fail when the id is falsy, fail
when the id is already forwarded to a truthy port, otherwise assign. -/
def resolveNames (canisterNameToId : List (String × String))
    (canisterIdToPort : List (String × Int)) :
    List (String × Int) → Except String (List (String × Int))
  | [] => .ok canisterIdToPort
  | (canisterName, canisterPort) :: rest =>
    match recGet canisterName canisterNameToId with
    | none => .error (noIdMsg canisterName canisterPort)
    | some canisterId =>
      if canisterId = "" then .error (noIdMsg canisterName canisterPort)
      else
        match recGet canisterId canisterIdToPort with
        | some existing =>
          if existing ≠ 0 then
            .error (conflictMsg canisterName canisterPort canisterId existing)
          else
            resolveNames canisterNameToId
              (recSet canisterId canisterPort canisterIdToPort) rest
        | none =>
          resolveNames canisterNameToId
            (recSet canisterId canisterPort canisterIdToPort) rest

/-- Observable outcome of `main`: `--help` exit 0, a fatal message with
exit 1, or the routers started for the final bindings and upstream host. -/
inductive MainOutcome where
  | helpExit : MainOutcome
  | fatalExit : String → MainOutcome
  | started : List (String × Int) → String → MainOutcome
deriving DecidableEq, Repr

/-- `main` (`src/index.ts` lines 200-290), named `mainRun` because Lean
reserves `main` for executables: `--help` short-circuit, parse, the
"No canisters to proxy" and "No replica to proxy to" checks, the
canister-ids file loop, the name-resolution loop, then one router per final
binding. -/
def mainRun (args : List String) (fileTable : List (String × Option String)) :
    MainOutcome :=
  match jsIndexOf "--help" args with
  | some _ => .helpExit
  | none =>
    match getConfig args with
    | .error e => .fatalExit e
    | .ok cfg =>
      if cfg.canisterIdToPort.length = 0 then .fatalExit "No canisters to proxy"
      else if truthyOptStr cfg.replicaHost = false then .fatalExit "No replica to proxy to"
      else
        let canisterNameToId :=
          if truthyOptStr cfg.canisterIdsFile then
            buildNameToId fileTable cfg.canisterNameToId
          else cfg.canisterNameToId
        match resolveNames canisterNameToId cfg.canisterIdToPort
            cfg.canisterNameToPort with
        | .error e => .fatalExit e
        | .ok canisterIdToPort =>
          .started canisterIdToPort (cfg.replicaHost.getD "")

/-- `pathRewrite` of `mkApp` (`src/index.ts` lines 175-187): split the
request target on `"?"`, keep the first segment as the path and the second
(when truthy) as the preserved query, then append `canisterId=<identifier>`. -/
def pathRewrite (canisterId : String) (pathAndParams : String) : String :=
  let parts := splitOnChar '?' pathAndParams.data
  let path := parts.headD []
  let params := (parts.drop 1).headD []
  String.mk (path ++ '?' ::
    ((if params = [] then [] else params ++ ['&']) ++ ("canisterId=" ++ canisterId).data))

theorem splitOnChar_ne_nil (sep : Char) (xs : List Char) : splitOnChar sep xs ≠ [] := by
  induction xs with
  | nil => simp [splitOnChar]
  | cons c cs ih =>
    simp only [splitOnChar]
    split
    · simp
    · cases h : splitOnChar sep cs <;> simp

theorem splitOnChar_of_not_mem (sep : Char) (xs : List Char) (h : sep ∉ xs) :
    splitOnChar sep xs = [xs] := by
  induction xs with
  | nil => rfl
  | cons c cs ih =>
    simp only [List.mem_cons, not_or] at h
    have hc : ¬ (c = sep) := fun hh => h.1 hh.symm
    simp only [splitOnChar, if_neg hc, ih h.2]

theorem splitOnChar_append (sep : Char) (xs ys : List Char) (h : sep ∉ xs) :
    splitOnChar sep (xs ++ sep :: ys) = xs :: splitOnChar sep ys := by
  induction xs with
  | nil => simp [splitOnChar]
  | cons c cs ih =>
    simp only [List.mem_cons, not_or] at h
    have hc : ¬ (c = sep) := fun hh => h.1 hh.symm
    simp only [List.cons_append, splitOnChar, if_neg hc, List.append_eq, ih h.2]

theorem data_ne_nil_of_ne_empty (s : String) (h : s ≠ "") : s.data ≠ [] := by
  intro hnil
  apply h
  cases s with
  | mk d =>
    simp only at hnil
    subst hnil
    rfl

/-- C1: the rewrite of the Port Router, on a target made of a `?`-free path,
a single `?`, and a `?`-free nonempty query string, preserves the query
verbatim followed by `&` and appends `canisterId=<identifier>`; on a target
with no `?` it appends `?canisterId=<identifier>`.  (On targets with a second
`?` the rewrite drops everything from the second `?` on, which is what the
counterexample exhibits.) -/
theorem pathRewrite_splits_on_first_query (cid path params : String)
    (hp : '?' ∉ path.data) (hq : '?' ∉ params.data) (hne : params ≠ "") :
    pathRewrite cid (path ++ "?" ++ params) =
      path ++ "?" ++ params ++ "&canisterId=" ++ cid ∧
    pathRewrite cid path = path ++ "?canisterId=" ++ cid := by
  have hps : params.data ≠ [] := data_ne_nil_of_ne_empty params hne
  constructor
  · have hdata : (path ++ "?" ++ params).data = path.data ++ '?' :: params.data := by
      simp [String.data_append]
    apply String.ext
    simp only [pathRewrite, hdata, splitOnChar_append _ _ _ hp,
      splitOnChar_of_not_mem _ _ hq, List.headD_cons, List.drop_succ_cons,
      List.drop_zero, if_neg hps, String.data_append]
    simp [List.append_assoc]
  · apply String.ext
    simp only [pathRewrite, splitOnChar_of_not_mem _ _ hp, List.headD_cons,
      List.drop_succ_cons, List.drop_nil, List.headD_nil, if_pos rfl,
      String.data_append]
    simp

/-- C1 witness: the theorem applied at path `/p`, query `a=1`, identifier `x`. -/
theorem pathRewrite_splits_on_first_query_witness :
    ('?' ∉ "/p".data) ∧ ('?' ∉ "a=1".data) ∧ ("a=1" : String) ≠ "" ∧
    pathRewrite "x" ("/p" ++ "?" ++ "a=1") =
      "/p" ++ "?" ++ "a=1" ++ "&canisterId=" ++ "x" :=
  ⟨by decide, by decide, by decide,
    (pathRewrite_splits_on_first_query "x" "/p" "a=1" (by decide) (by decide)
      (by decide)).1⟩

/-- C1 counterexample: on the target `/p?a=1?b=2`, whose query string
`a=1?b=2` contains a `?`, the rewrite does not preserve the query verbatim —
everything from the second `?` on is dropped. -/
theorem pathRewrite_counterexample :
    pathRewrite "x" "/p?a=1?b=2" = "/p?a=1&canisterId=x" ∧
    pathRewrite "x" "/p?a=1?b=2" ≠ "/p?a=1?b=2&canisterId=x" := by
  decide

/-- C6: a `--by-id` / `--by-name` value must split on `:` into exactly two
segments, else the parse fails with `Could not parse '<value>'`; its second
segment is handed to JavaScript `parseInt` (which accepts trailing
non-digits and a hexadecimal `0x` prefix rather than demanding a pure
base-10 integer), and only a `NaN` result fails with `Could not parse port
'<x>' as number`; the loop adds the binding exactly when neither error
occurs, splicing the flag and value out of the argument array either way. -/
theorem parseBinding_parse_int_semantics (arg : String) :
    ((splitOnChar ':' arg.data).length ≠ 2 →
      parseBinding arg = .error ("Could not parse '" ++ arg ++ "'")) ∧
    (∀ c pstr, splitOnChar ':' arg.data = [c, pstr] →
      (parseIntJS (String.mk pstr) = none →
        parseBinding arg =
          .error ("Could not parse port '" ++ String.mk pstr ++ "' as number")) ∧
      (∀ n, parseIntJS (String.mk pstr) = some n →
        parseBinding arg = .ok (String.mk c, n))) ∧
    (∀ param fuel args acc i x,
      jsIndexOf param args = some i → (args.drop i).take 2 = [x, arg] →
      (∀ c p, parseBinding arg = .ok (c, p) →
        parseCanisterToPortAux param (fuel + 1) args acc =
          parseCanisterToPortAux param fuel (args.take i ++ args.drop (i + 2))
            (recSet c p acc)) ∧
      (∀ e, parseBinding arg = .error e →
        parseCanisterToPortAux param (fuel + 1) args acc =
          (.error e, args.take i ++ args.drop (i + 2)))) := by
  refine ⟨?_, ?_, ?_⟩
  · intro hlen
    unfold parseBinding
    cases h : splitOnChar ':' arg.data with
    | nil => rfl
    | cons a t =>
      cases t with
      | nil => rfl
      | cons b t2 =>
        cases t2 with
        | nil => rw [h] at hlen; simp at hlen
        | cons c t3 => rfl
  · intro c pstr h
    constructor
    · intro hnone
      simp [parseBinding, h, hnone]
    · intro n hn
      simp [parseBinding, h, hn]
  · intro param fuel args acc i x hidx hrem
    constructor
    · intro c p hok
      conv_lhs => rw [parseCanisterToPortAux]
      rw [hidx]
      simp only [hrem, hok]
    · intro e herr
      conv_lhs => rw [parseCanisterToPortAux]
      rw [hidx]
      simp only [hrem, herr]

/-- C6 witness: the theorem applied at the value `a:8080`. -/
theorem parseBinding_parse_int_semantics_witness :
    splitOnChar ':' ("a:8080" : String).data = [['a'], ['8', '0', '8', '0']] ∧
    parseIntJS (String.mk ['8', '0', '8', '0']) = some 8080 ∧
    parseBinding "a:8080" = .ok (String.mk ['a'], 8080) :=
  ⟨by decide, by decide,
    (((parseBinding_parse_int_semantics "a:8080").2.1 ['a'] ['8', '0', '8', '0']
      (by decide)).2 8080 (by decide))⟩

/-- C6 counterexample: the values `a:12px` and `a:0x10` are not base-10
integers after their `:`, yet no error is raised — `parseInt` reads `12`
from `12px` and parses `0x10` as hexadecimal `16`, and the bindings are
added. -/
theorem parseBinding_counterexample :
    parseCanisterToPortSt "--by-id" ["--by-id", "a:12px"] [] =
      (.ok [("a", 12)], []) ∧
    parseCanisterToPortSt "--by-id" ["--by-id", "a:0x10"] [] =
      (.ok [("a", 16)], []) := by
  decide

theorem parseCanisterToPortAux_none (param : String) (fuel : Nat)
    (args : List String) (acc : List (String × Int))
    (h : jsIndexOf param args = none) :
    parseCanisterToPortAux param fuel args acc = (.ok acc, args) := by
  cases fuel <;> rw [parseCanisterToPortAux] <;> rw [h]

/-- C8 counterexample: `["--replica-host", "--replica-host"]` contains two
occurrences of `--replica-host`, yet parsing succeeds — the second occurrence
is consumed as the value of the first and becomes the Upstream Host. -/
theorem parseArgs_double_replica_host_counterexample :
    parseArgs ["--replica-host", "--replica-host"] =
      .ok { replicaHost := some "--replica-host", canisterIdsFile := none,
            canisterIdToPort := [], canisterNameToPort := [],
            canisterNameToId := [] } := by
  decide

/-- C8: when both occurrences of `--replica-host` stand as flag tokens with
their own value (the argument list has the shape
`["--replica-host", v₁, "--replica-host", v₂]`), parsing is always rejected:
the first occurrence and its value are consumed, and the second occurrence
either survives to the leftover-token error or poisons another flag's
parsing.  (An occurrence consumed as another flag's value is silently
accepted instead, as the counterexample shows.) -/
theorem parseArgs_rejects_double_replica_host (v₁ v₂ : String) :
    ∃ e, parseArgs ["--replica-host", v₁, "--replica-host", v₂] = .error e := by
  have hstep1 : stripOptSt "--replica-host" ["--replica-host", v₁, "--replica-host", v₂]
      = (.ok (some v₁), ["--replica-host", v₂]) := rfl
  by_cases h1 : v₂ = "--canister-ids-file"
  · subst h1; exact ⟨_, rfl⟩
  · by_cases h2 : v₂ = "--by-id"
    · subst h2; exact ⟨_, rfl⟩
    · by_cases h3 : v₂ = "--by-name"
      · subst h3; exact ⟨_, rfl⟩
      · have e1 : jsIndexOf "--canister-ids-file" ["--replica-host", v₂] = none := by
          simp [jsIndexOf, h1]
        have e2 : jsIndexOf "--by-id" ["--replica-host", v₂] = none := by
          simp [jsIndexOf, h2]
        have e3 : jsIndexOf "--by-name" ["--replica-host", v₂] = none := by
          simp [jsIndexOf, h3]
        have hstep2 : stripOptSt "--canister-ids-file" ["--replica-host", v₂]
            = (.ok none, ["--replica-host", v₂]) := by
          unfold stripOptSt; rw [e1]
        have hstep3 : parseCanisterToPortSt "--by-id" ["--replica-host", v₂] []
            = (.ok [], ["--replica-host", v₂]) :=
          parseCanisterToPortAux_none _ _ _ _ e2
        have hstep4 : parseCanisterToPortSt "--by-name" ["--replica-host", v₂] []
            = (.ok [], ["--replica-host", v₂]) :=
          parseCanisterToPortAux_none _ _ _ _ e3
        exact ⟨_, by
          simp only [parseArgs, parseArgsSt, hstep1, hstep2, hstep3, hstep4]
          rw [if_pos (by simp)]⟩

/-- C7: whenever the four flag passes all succeed and still leave tokens in
the array, `parseArgs` fails with the message naming the leftover count and
the leftover tokens verbatim (joined by `,`, JavaScript's array-to-string). -/
theorem parseArgs_leftover_tokens (args args1 args2 args3 rem : List String)
    (host file : Option String) (m1 m2 : List (String × Int))
    (h1 : stripOptSt "--replica-host" args = (.ok host, args1))
    (h2 : stripOptSt "--canister-ids-file" args1 = (.ok file, args2))
    (h3 : parseCanisterToPortSt "--by-id" args2 [] = (.ok m1, args3))
    (h4 : parseCanisterToPortSt "--by-name" args3 [] = (.ok m2, rem))
    (h5 : rem ≠ []) :
    parseArgs args = .error ("Error: Don't know what to do with "
      ++ toString rem.length ++ " argument(s): " ++ String.intercalate "," rem) := by
  simp only [parseArgs, parseArgsSt, h1, h2, h3, h4]
  rw [if_pos (by simpa using h5)]

/-- C7 witness: the theorem applied to the single leftover token `bogus`. -/
theorem parseArgs_leftover_tokens_witness :
    parseArgs ["bogus"] = .error ("Error: Don't know what to do with "
      ++ toString (["bogus"] : List String).length ++ " argument(s): "
      ++ String.intercalate "," ["bogus"]) :=
  parseArgs_leftover_tokens ["bogus"] ["bogus"] ["bogus"] ["bogus"] ["bogus"]
    none none [] [] (by decide) (by decide) (by decide) (by decide) (by decide)

theorem spliceRest_sublist (i n : Nat) (l : List α) :
    List.Sublist (l.take i ++ l.drop (i + n)) l := by
  conv_rhs => rw [← List.take_append_drop i l]
  apply List.Sublist.append_left
  have h := List.drop_sublist n (l.drop i)
  rwa [List.drop_drop] at h

theorem stripOptSt_state_sublist (flag : String) (args : List String) :
    List.Sublist (stripOptSt flag args).2 args := by
  unfold stripOptSt
  split
  · exact List.Sublist.refl _
  · split <;> simpa using spliceRest_sublist _ 2 args

theorem parseCanisterToPortAux_state_sublist (param : String) :
    ∀ fuel args acc, List.Sublist (parseCanisterToPortAux param fuel args acc).2 args := by
  intro fuel
  induction fuel with
  | zero =>
    intro args acc
    rw [parseCanisterToPortAux]
    split <;> simp
  | succ f ih =>
    intro args acc
    rw [parseCanisterToPortAux]
    split
    · exact List.Sublist.refl _
    · split
      · split
        · exact (ih _ _).trans (by simpa using spliceRest_sublist _ 2 args)
        · simpa using spliceRest_sublist _ 2 args
      · simpa using spliceRest_sublist _ 2 args

/-- C10: `parseArgs` (and `getConfig`, which runs it on the same aliased
array) consumes recognized flag/value pairs destructively: the array state
after the call — the second component of the state-passing embedding — is a
sublist of the original array (tokens are only ever removed, in place and in
order), and after a successful parse it is empty: every token was consumed
out of the caller's array rather than out of a copy. -/
theorem parseArgs_splices_caller_array (args : List String) :
    List.Sublist (parseArgsSt args).2 args ∧
    ∀ cfg, (parseArgsSt args).1 = .ok cfg → (parseArgsSt args).2 = [] := by
  have s1 := stripOptSt_state_sublist "--replica-host" args
  rcases h1 : stripOptSt "--replica-host" args with ⟨r1, args1⟩
  rw [h1] at s1
  simp only at s1
  unfold parseArgsSt
  rw [h1]
  cases r1 with
  | error e => exact ⟨s1, fun cfg hcfg => by simp at hcfg⟩
  | ok replicaHost =>
    dsimp only
    have s2 := stripOptSt_state_sublist "--canister-ids-file" args1
    rcases h2 : stripOptSt "--canister-ids-file" args1 with ⟨r2, args2⟩
    rw [h2] at s2
    simp only at s2
    cases r2 with
    | error e => exact ⟨s2.trans s1, fun cfg hcfg => by simp at hcfg⟩
    | ok canisterIdsFile =>
      dsimp only
      have s3 := parseCanisterToPortAux_state_sublist "--by-id" args2.length args2 []
      rcases h3 : parseCanisterToPortSt "--by-id" args2 [] with ⟨r3, args3⟩
      rw [parseCanisterToPortSt] at h3
      rw [h3] at s3
      simp only at s3
      cases r3 with
      | error e => exact ⟨(s3.trans s2).trans s1, fun cfg hcfg => by simp at hcfg⟩
      | ok canisterIdToPort =>
        dsimp only
        have s4 := parseCanisterToPortAux_state_sublist "--by-name" args3.length args3 []
        rcases h4 : parseCanisterToPortSt "--by-name" args3 [] with ⟨r4, args4⟩
        rw [parseCanisterToPortSt] at h4
        rw [h4] at s4
        simp only at s4
        cases r4 with
        | error e =>
          exact ⟨((s4.trans s3).trans s2).trans s1, fun cfg hcfg => by simp at hcfg⟩
        | ok canisterNameToPort =>
          dsimp only
          by_cases hlen : args4.length ≠ 0
          · rw [if_pos hlen]
            exact ⟨((s4.trans s3).trans s2).trans s1, fun cfg hcfg => by simp at hcfg⟩
          · rw [if_neg hlen]
            simp only [not_not] at hlen
            have : args4 = [] := List.length_eq_zero.mp hlen
            subst this
            exact ⟨List.nil_sublist args, fun cfg _ => rfl⟩

/-- C10 witness: the theorem applied to a concrete leftover-token array and
to the empty array, whose successful parse leaves the array empty. -/
theorem parseArgs_splices_caller_array_witness :
    List.Sublist (parseArgsSt ["--by-id", "a:1", "leftover"]).2
      ["--by-id", "a:1", "leftover"] ∧
    (parseArgsSt []).2 = [] :=
  ⟨(parseArgs_splices_caller_array ["--by-id", "a:1", "leftover"]).1,
    (parseArgs_splices_caller_array []).2
      { replicaHost := none, canisterIdsFile := none, canisterIdToPort := [],
        canisterNameToPort := [], canisterNameToId := [] } rfl⟩

theorem recGet_recSet_self (k : String) (v : α) (m : List (String × α)) :
    recGet k (recSet k v m) = some v := by
  induction m with
  | nil => simp [recGet, recSet]
  | cons p t ih =>
    obtain ⟨k', v'⟩ := p
    by_cases h : k' = k
    · simp [recSet, recGet, h]
    · simp [recSet, recGet, h, ih]

theorem recGet_recSet_ne (k k' : String) (h : k' ≠ k) (v : α)
    (m : List (String × α)) : recGet k' (recSet k v m) = recGet k' m := by
  have hk : ¬ (k = k') := fun hh => h hh.symm
  induction m with
  | nil => simp [recGet, recSet, hk]
  | cons p t ih =>
    obtain ⟨a, b⟩ := p
    by_cases ha : a = k
    · subst ha
      simp [recSet, recGet, hk]
    · simp only [recSet, if_neg ha, recGet]
      by_cases ha' : a = k'
      · simp [ha']
      · simp [ha', ih]

theorem mem_keys_recSet (k a : String) (v : α) (m : List (String × α)) :
    a ∈ (recSet k v m).map Prod.fst ↔ a = k ∨ a ∈ m.map Prod.fst := by
  induction m with
  | nil => simp [recSet, eq_comm]
  | cons p t ih =>
    obtain ⟨k', v'⟩ := p
    by_cases h : k' = k
    · subst h
      simp [recSet, eq_comm]
    · simp only [recSet, if_neg h, List.map_cons, List.mem_cons, ih]
      tauto

theorem keys_nodup_recSet (k : String) (v : α) (m : List (String × α))
    (h : (m.map Prod.fst).Nodup) : ((recSet k v m).map Prod.fst).Nodup := by
  induction m with
  | nil => simp [recSet]
  | cons p t ih =>
    obtain ⟨k', v'⟩ := p
    simp only [List.map_cons, List.nodup_cons] at h
    by_cases hk : k' = k
    · subst hk
      simpa [recSet] using h
    · simp only [recSet, if_neg hk, List.map_cons, List.nodup_cons]
      refine ⟨fun hmem => ?_, ih h.2⟩
      rcases (mem_keys_recSet k k' v t).mp hmem with h1 | h1
      · exact hk h1
      · exact h.1 h1

/-- C4: when a name-keyed binding `N:P` resolves to an identifier `X` that
the identifier-keyed set already maps to a nonzero port `Q`, resolution
fails with the fatal message naming `N`, `P`, `X` and `Q`; `main` prints it
and exits with status 1.  (When the pre-existing port is `0` the truthiness
check misses the conflict, which is what the counterexample exhibits and
what C5 describes.) -/
theorem resolveNames_conflict_error (nameToId : List (String × String))
    (idToPort rest : List (String × Int)) (N : String) (P : Int) (X : String)
    (Q : Int) (hres : recGet N nameToId = some X) (hX : X ≠ "")
    (hbound : recGet X idToPort = some Q) (hQ : Q ≠ 0) :
    resolveNames nameToId idToPort ((N, P) :: rest) =
      .error (conflictMsg N P X Q) := by
  simp only [resolveNames, hres]
  rw [if_neg hX]
  simp only [hbound]
  rw [if_pos hQ]

/-- C4 witness: the theorem applied to the pre-existing binding `X → 8` and
the name binding `n:5` with `n → X`. -/
theorem resolveNames_conflict_error_witness :
    resolveNames [("n", "X")] [("X", 8)] [("n", 5)] =
      .error (conflictMsg "n" 5 "X" 8) :=
  resolveNames_conflict_error [("n", "X")] [("X", 8)] [] "n" 5 "X" 8
    (by decide) (by decide) (by decide) (by decide)

/-- C4 counterexample: with the identifier-keyed binding `X:0` already
present, the name binding `n:5` (with `n → X` in the lookup table) raises no
fatal error — startup succeeds and the binding is silently overwritten to
port 5. -/
theorem mainRun_conflict_with_port_zero_missed :
    mainRun ["--replica-host", "h", "--canister-ids-file", "f", "--by-id",
      "X:0", "--by-name", "n:5"] [("n", some "X")] = .started [("X", 5)] "h" := by
  decide

/-- C5: the already-forwarded check is the truthiness of
`canisterIdToPort[canisterId]`, so a pre-existing binding of `X` to port `0`
is treated as absent: resolving a name binding `N:P` with `N → X` raises no
error and overwrites `X`'s binding with `P`. -/
theorem resolveNames_port_zero_overwritten (nameToId : List (String × String))
    (idToPort rest : List (String × Int)) (N : String) (P : Int) (X : String)
    (hres : recGet N nameToId = some X) (hX : X ≠ "")
    (hbound : recGet X idToPort = some 0) :
    resolveNames nameToId idToPort ((N, P) :: rest) =
      resolveNames nameToId (recSet X P idToPort) rest ∧
    recGet X (recSet X P idToPort) = some P := by
  constructor
  · simp only [resolveNames, hres]
    rw [if_neg hX]
    simp only [hbound]
    rw [if_neg (by simp)]
  · exact recGet_recSet_self X P idToPort

/-- C5 witness: the theorem applied to the pre-existing binding `X → 0` and
the name binding `n:5` with `n → X`; the resolved set maps `X` to `5`. -/
theorem resolveNames_port_zero_overwritten_witness :
    resolveNames [("n", "X")] [("X", 0)] [("n", 5)] = .ok [("X", 5)] ∧
    recGet "X" (recSet "X" 5 [("X", (0 : Int))]) = some 5 :=
  ⟨by
    rw [(resolveNames_port_zero_overwritten [("n", "X")] [("X", 0)] [] "n" 5 "X"
      (by decide) (by decide) (by decide)).1]
    decide,
   (resolveNames_port_zero_overwritten [("n", "X")] [("X", 0)] [] "n" 5 "X"
      (by decide) (by decide) (by decide)).2⟩

/-- C9: parsing `--replica-host <url> --by-id abc:8080 --by-name foo:9090
--canister-ids-file <path>` with the lookup table `{"foo": {"local": "xyz"}}`
succeeds and starts the routers for exactly the binding set
`{abc: 8080, xyz: 9090}`.  The url and path must be truthy (nonempty) and
must not be the literal token `--help`, or `main` would exit early. -/
theorem mainRun_round_trip (url path : String) (hurl : url ≠ "")
    (hpath : path ≠ "") (hu2 : url ≠ "--help") (hp2 : path ≠ "--help") :
    mainRun ["--replica-host", url, "--by-id", "abc:8080", "--by-name",
      "foo:9090", "--canister-ids-file", path] [("foo", some "xyz")] =
      .started [("abc", 8080), ("xyz", 9090)] url := by
  have hhelp : jsIndexOf "--help" ["--replica-host", url, "--by-id", "abc:8080",
      "--by-name", "foo:9090", "--canister-ids-file", path] = none := by
    simp [jsIndexOf, hu2, hp2]
  have hcfg : getConfig ["--replica-host", url, "--by-id", "abc:8080",
      "--by-name", "foo:9090", "--canister-ids-file", path] =
      .ok { replicaHost := some url, canisterIdsFile := some path,
            canisterIdToPort := [("abc", 8080)],
            canisterNameToPort := [("foo", 9090)], canisterNameToId := [] } := rfl
  unfold mainRun
  rw [hhelp]
  dsimp only
  rw [hcfg]
  dsimp only
  rw [if_neg (by decide)]
  rw [if_neg (by simp [truthyOptStr, hurl])]
  rw [if_pos (by simp [truthyOptStr, hpath])]
  rfl

/-- C9 witness: the theorem applied at a concrete url and file path. -/
theorem mainRun_round_trip_witness :
    mainRun ["--replica-host", "http://localhost:8000", "--by-id", "abc:8080",
      "--by-name", "foo:9090", "--canister-ids-file", "ids.json"]
      [("foo", some "xyz")] = .started [("abc", 8080), ("xyz", 9090)]
      "http://localhost:8000" :=
  mainRun_round_trip "http://localhost:8000" "ids.json" (by decide) (by decide)
    (by decide) (by decide)

theorem parseCanisterToPortAux_ok_nodup (param : String) :
    ∀ fuel args acc m rest, (acc.map Prod.fst).Nodup →
      parseCanisterToPortAux param fuel args acc = (.ok m, rest) →
      (m.map Prod.fst).Nodup := by
  intro fuel
  induction fuel with
  | zero =>
    intro args acc m rest hacc h
    rw [parseCanisterToPortAux] at h
    cases hidx : jsIndexOf param args with
    | none =>
      rw [hidx] at h
      simp only [Prod.mk.injEq, Except.ok.injEq] at h
      rw [← h.1]
      exact hacc
    | some i => rw [hidx] at h; simp at h
  | succ f ih =>
    intro args acc m rest hacc h
    rw [parseCanisterToPortAux] at h
    cases hidx : jsIndexOf param args with
    | none =>
      rw [hidx] at h
      simp only [Prod.mk.injEq, Except.ok.injEq] at h
      rw [← h.1]
      exact hacc
    | some i =>
      rw [hidx] at h
      dsimp only at h
      cases htk : (args.drop i).take 2 with
      | nil => rw [htk] at h; simp at h
      | cons a t =>
        cases t with
        | nil => rw [htk] at h; simp at h
        | cons b t2 =>
          cases t2 with
          | nil =>
            rw [htk] at h
            dsimp only at h
            cases hpb : parseBinding b with
            | ok cp =>
              obtain ⟨c, p⟩ := cp
              rw [hpb] at h
              exact ih _ _ m rest (keys_nodup_recSet c p acc hacc) h
            | error e => rw [hpb] at h; simp at h
          | cons d t3 => rw [htk] at h; simp at h

theorem resolveNames_ok_nodup (nameToId : List (String × String)) :
    ∀ names idToPort m, (idToPort.map Prod.fst).Nodup →
      resolveNames nameToId idToPort names = .ok m →
      (m.map Prod.fst).Nodup := by
  intro names
  induction names with
  | nil =>
    intro idToPort m hnd h
    rw [resolveNames] at h
    simp only [Except.ok.injEq] at h
    rw [← h]
    exact hnd
  | cons np rest ih =>
    obtain ⟨n, p⟩ := np
    intro idToPort m hnd h
    rw [resolveNames] at h
    cases hres : recGet n nameToId with
    | none => rw [hres] at h; simp at h
    | some cid =>
      rw [hres] at h
      dsimp only at h
      by_cases hcid : cid = ""
      · rw [if_pos hcid] at h; simp at h
      · rw [if_neg hcid] at h
        cases hb : recGet cid idToPort with
        | none =>
          rw [hb] at h
          exact ih _ m (keys_nodup_recSet cid p idToPort hnd) h
        | some q =>
          rw [hb] at h
          dsimp only at h
          by_cases hq : q ≠ 0
          · rw [if_pos hq] at h; simp at h
          · rw [if_neg hq] at h
            exact ih _ m (keys_nodup_recSet cid p idToPort hnd) h

theorem parseArgs_ok_idToPort_nodup (args : List String) (cfg : Config)
    (h : parseArgs args = .ok cfg) :
    (cfg.canisterIdToPort.map Prod.fst).Nodup := by
  unfold parseArgs parseArgsSt at h
  rcases h1 : stripOptSt "--replica-host" args with ⟨r1, args1⟩
  rw [h1] at h
  cases r1 with
  | error e => simp at h
  | ok replicaHost =>
    dsimp only at h
    rcases h2 : stripOptSt "--canister-ids-file" args1 with ⟨r2, args2⟩
    rw [h2] at h
    cases r2 with
    | error e => simp at h
    | ok canisterIdsFile =>
      dsimp only at h
      rcases h3 : parseCanisterToPortSt "--by-id" args2 [] with ⟨r3, args3⟩
      rw [h3] at h
      cases r3 with
      | error e => simp at h
      | ok canisterIdToPort =>
        dsimp only at h
        rcases h4 : parseCanisterToPortSt "--by-name" args3 [] with ⟨r4, args4⟩
        rw [h4] at h
        cases r4 with
        | error e => simp at h
        | ok canisterNameToPort =>
          dsimp only at h
          by_cases hlen : args4.length ≠ 0
          · rw [if_pos hlen] at h; simp at h
          · rw [if_neg hlen] at h
            simp only [Except.ok.injEq] at h
            rw [← h]
            rw [parseCanisterToPortSt] at h3
            exact parseCanisterToPortAux_ok_nodup "--by-id" args2.length args2 []
              canisterIdToPort args3 (by simp) h3

/-- C3: for every argument list and lookup table on which startup succeeds
(routers are started), the final resolved binding set has pairwise-distinct
Identifiers — it is built by record assignment, whose keys stay unique.
Port uniqueness, by contrast, is never checked anywhere, which is what the
counterexample exhibits. -/
theorem mainRun_started_identifiers_nodup (args : List String)
    (fileTable : List (String × Option String)) (m : List (String × Int))
    (host : String) (h : mainRun args fileTable = .started m host) :
    (m.map Prod.fst).Nodup := by
  unfold mainRun at h
  cases hh : jsIndexOf "--help" args with
  | some i => rw [hh] at h; simp at h
  | none =>
    rw [hh] at h
    dsimp only at h
    cases hc : getConfig args with
    | error e => rw [hc] at h; simp at h
    | ok cfg =>
      rw [hc] at h
      dsimp only at h
      by_cases h0 : cfg.canisterIdToPort.length = 0
      · rw [if_pos h0] at h; simp at h
      · rw [if_neg h0] at h
        by_cases h1 : truthyOptStr cfg.replicaHost = false
        · rw [if_pos h1] at h; simp at h
        · rw [if_neg h1] at h
          generalize hnt : (if truthyOptStr cfg.canisterIdsFile then
            buildNameToId fileTable cfg.canisterNameToId
            else cfg.canisterNameToId) = ntid at h
          cases hr : resolveNames ntid cfg.canisterIdToPort
              cfg.canisterNameToPort with
          | error e => rw [hr] at h; simp at h
          | ok m' =>
            rw [hr] at h
            simp only [MainOutcome.started.injEq] at h
            rw [← h.1]
            exact resolveNames_ok_nodup ntid cfg.canisterNameToPort
              cfg.canisterIdToPort m' (parseArgs_ok_idToPort_nodup args cfg hc) hr

/-- C3 witness: the theorem applied to a concrete successful startup. -/
theorem mainRun_started_identifiers_nodup_witness :
    (mainRun ["--replica-host", "h", "--by-id", "a:1"] [] =
      .started [("a", 1)] "h") ∧
    (([("a", (1 : Int))].map Prod.fst).Nodup) :=
  ⟨by decide, mainRun_started_identifiers_nodup ["--replica-host", "h", "--by-id", "a:1"]
    [] [("a", 1)] "h" (by decide)⟩

/-- C3 counterexample: `--by-id a:8080 --by-id b:8080` starts up with no
fatal error, yet the two bindings share port 8080 — port uniqueness is not
part of the resolved-set invariant the code enforces. -/
theorem mainRun_duplicate_ports_counterexample :
    mainRun ["--replica-host", "h", "--by-id", "a:8080", "--by-id", "b:8080"] []
      = .started [("a", 8080), ("b", 8080)] "h" ∧
    ¬ (([("a", (8080 : Int)), ("b", 8080)].map Prod.snd).Nodup) := by
  decide

theorem resolveNames_ext (nameToId : List (String × String)) :
    ∀ names m₁ m₂, (∀ k, recGet k m₁ = recGet k m₂) →
      (∃ e, resolveNames nameToId m₁ names = .error e ∧
        resolveNames nameToId m₂ names = .error e) ∨
      (∃ r₁ r₂, resolveNames nameToId m₁ names = .ok r₁ ∧
        resolveNames nameToId m₂ names = .ok r₂ ∧
        ∀ k, recGet k r₁ = recGet k r₂) := by
  intro names
  induction names with
  | nil =>
    intro m₁ m₂ hext
    right
    exact ⟨m₁, m₂, rfl, rfl, hext⟩
  | cons np rest ih =>
    obtain ⟨n, p⟩ := np
    intro m₁ m₂ hext
    cases hres : recGet n nameToId with
    | none =>
      left
      exact ⟨noIdMsg n p, by rw [resolveNames, hres], by rw [resolveNames, hres]⟩
    | some cid =>
      by_cases hcid : cid = ""
      · left
        refine ⟨noIdMsg n p, ?_, ?_⟩ <;>
          (rw [resolveNames, hres]; dsimp only; rw [if_pos hcid])
      · have hsame := hext cid
        cases hb : recGet cid m₁ with
        | some q =>
          have hb₂ : recGet cid m₂ = some q := hsame.symm.trans hb
          by_cases hq : q ≠ 0
          · left
            refine ⟨conflictMsg n p cid q, ?_, ?_⟩
            · rw [resolveNames, hres]; dsimp only; rw [if_neg hcid, hb]
              dsimp only; rw [if_pos hq]
            · rw [resolveNames, hres]; dsimp only; rw [if_neg hcid, hb₂]
              dsimp only; rw [if_pos hq]
          · have e₁ : resolveNames nameToId m₁ ((n, p) :: rest) =
                resolveNames nameToId (recSet cid p m₁) rest := by
              rw [resolveNames, hres]; dsimp only; rw [if_neg hcid, hb]
              dsimp only; rw [if_neg hq]
            have e₂ : resolveNames nameToId m₂ ((n, p) :: rest) =
                resolveNames nameToId (recSet cid p m₂) rest := by
              rw [resolveNames, hres]; dsimp only; rw [if_neg hcid, hb₂]
              dsimp only; rw [if_neg hq]
            rw [e₁, e₂]
            apply ih
            intro k
            by_cases hk : k = cid
            · subst hk
              rw [recGet_recSet_self, recGet_recSet_self]
            · rw [recGet_recSet_ne cid k hk, recGet_recSet_ne cid k hk, hext k]
        | none =>
          have hb₂ : recGet cid m₂ = none := hsame.symm.trans hb
          have e₁ : resolveNames nameToId m₁ ((n, p) :: rest) =
              resolveNames nameToId (recSet cid p m₁) rest := by
            rw [resolveNames, hres]; dsimp only; rw [if_neg hcid, hb]
          have e₂ : resolveNames nameToId m₂ ((n, p) :: rest) =
              resolveNames nameToId (recSet cid p m₂) rest := by
            rw [resolveNames, hres]; dsimp only; rw [if_neg hcid, hb₂]
          rw [e₁, e₂]
          apply ih
          intro k
          by_cases hk : k = cid
          · subst hk
            rw [recGet_recSet_self, recGet_recSet_self]
          · rw [recGet_recSet_ne cid k hk, recGet_recSet_ne cid k hk, hext k]

theorem resolveNames_stuck_on_bound (nameToId : List (String × String))
    (X N : String) (P Q : Int) (hres : recGet N nameToId = some X) (hQ : Q ≠ 0) :
    ∀ names m, recGet X m = some Q → (N, P) ∈ names →
      ∃ e, resolveNames nameToId m names = .error e := by
  intro names
  induction names with
  | nil =>
    intro m hX hmem
    simp at hmem
  | cons mp rest ih =>
    obtain ⟨M, QM⟩ := mp
    intro m hX hmem
    cases hres2 : recGet M nameToId with
    | none => exact ⟨noIdMsg M QM, by rw [resolveNames, hres2]⟩
    | some cid =>
      by_cases hcid : cid = ""
      · exact ⟨noIdMsg M QM, by rw [resolveNames, hres2]; dsimp only; rw [if_pos hcid]⟩
      · cases hb : recGet cid m with
        | some q =>
          by_cases hq : q ≠ 0
          · exact ⟨conflictMsg M QM cid q, by
              rw [resolveNames, hres2]; dsimp only; rw [if_neg hcid, hb]
              dsimp only; rw [if_pos hq]⟩
          · have hq0 : q = 0 := not_not.mp hq
            have hcidX : cid ≠ X := by
              intro hcx
              subst hcx
              rw [hb] at hX
              injection hX with h
              exact hQ (by rw [← h]; exact hq0)
            have hstep : resolveNames nameToId m ((M, QM) :: rest) =
                resolveNames nameToId (recSet cid QM m) rest := by
              rw [resolveNames, hres2]; dsimp only; rw [if_neg hcid, hb]
              dsimp only; rw [if_neg hq]
            rcases List.mem_cons.mp hmem with heq | hmem'
            · exfalso
              have hMN : N = M := congrArg Prod.fst heq
              subst hMN
              rw [hres] at hres2
              exact hcidX (by injection hres2 with h; exact h.symm)
            · rw [hstep]
              exact ih (recSet cid QM m)
                (by rw [recGet_recSet_ne cid X (Ne.symm hcidX) QM m]; exact hX) hmem'
        | none =>
          have hcidX : cid ≠ X := by
            intro hcx
            subst hcx
            rw [hb] at hX
            exact Option.noConfusion hX
          have hstep : resolveNames nameToId m ((M, QM) :: rest) =
              resolveNames nameToId (recSet cid QM m) rest := by
            rw [resolveNames, hres2]; dsimp only; rw [if_neg hcid, hb]
          rcases List.mem_cons.mp hmem with heq | hmem'
          · exfalso
            have hMN : N = M := congrArg Prod.fst heq
            subst hMN
            rw [hres] at hres2
            exact hcidX (by injection hres2 with h; exact h.symm)
          · rw [hstep]
            exact ih (recSet cid QM m)
              (by rw [recGet_recSet_ne cid X (Ne.symm hcidX) QM m]; exact hX) hmem'

/-- C2 counterexample: with only a name-keyed binding, `main` aborts with
"No canisters to proxy" (the emptiness check runs on the identifier-keyed
set before names are resolved), while the same arguments with
`--by-id xyz:9090` in place of `--by-name foo:9090` start a router — the
two argument lists do not produce identical configurations even though
`foo` resolves to the unbound identifier `xyz`. -/
theorem mainRun_by_name_vs_by_id_counterexample :
    mainRun ["--replica-host", "h", "--canister-ids-file", "f", "--by-name",
      "foo:9090"] [("foo", some "xyz")] = .fatalExit "No canisters to proxy" ∧
    mainRun ["--replica-host", "h", "--canister-ids-file", "f", "--by-id",
      "xyz:9090"] [("foo", some "xyz")] = .started [("xyz", 9090)] "h" := by
  decide

/-- C2: at the resolution phase (the claim's cited code), replacing the
name-keyed binding `N:P` — where the Lookup Table resolves `N` to the
nonempty identifier `X` and `X` is unbound in the identifier-keyed set —
by the identifier-keyed binding `X:P` gives matching outcomes: either both
runs fail fatally, or both succeed with extensionally equal binding sets.
This requires every name-keyed port (including `P`) to be nonzero, since a
port of `0` defeats the truthiness-based conflict check, and it requires the
identifier-keyed set to be nonempty overall (see the counterexample) for the
runs to reach this phase identically. -/
theorem resolveNames_by_name_matches_by_id (nameToId : List (String × String))
    (N X : String) (P : Int) (hres : recGet N nameToId = some X) (hX : X ≠ "")
    (hP : P ≠ 0) :
    ∀ pre post mA mB,
      (∀ k, k ≠ X → recGet k mA = recGet k mB) →
      recGet X mA = none → recGet X mB = some P →
      (∀ q ∈ pre.map Prod.snd, q ≠ 0) →
      ((∃ e₁, resolveNames nameToId mA (pre ++ (N, P) :: post) = .error e₁) ∧
       (∃ e₂, resolveNames nameToId mB (pre ++ post) = .error e₂)) ∨
      (∃ r₁ r₂, resolveNames nameToId mA (pre ++ (N, P) :: post) = .ok r₁ ∧
        resolveNames nameToId mB (pre ++ post) = .ok r₂ ∧
        ∀ k, recGet k r₁ = recGet k r₂) := by
  intro pre
  induction pre with
  | nil =>
    intro post mA mB hoff hXA hXB hports
    simp only [List.nil_append]
    have hstep : resolveNames nameToId mA ((N, P) :: post) =
        resolveNames nameToId (recSet X P mA) post := by
      rw [resolveNames, hres]; dsimp only; rw [if_neg hX, hXA]
    rw [hstep]
    have hext : ∀ k, recGet k (recSet X P mA) = recGet k mB := by
      intro k
      by_cases hk : k = X
      · subst hk
        rw [recGet_recSet_self, hXB]
      · rw [recGet_recSet_ne X k hk P mA, hoff k hk]
    rcases resolveNames_ext nameToId post (recSet X P mA) mB hext with
      ⟨e, hA, hB⟩ | hr
    · exact Or.inl ⟨⟨e, hA⟩, ⟨e, hB⟩⟩
    · exact Or.inr hr
  | cons mp pre' ih =>
    obtain ⟨M, QM⟩ := mp
    intro post mA mB hoff hXA hXB hports
    have hQM : QM ≠ 0 := hports QM (by simp)
    have hports' : ∀ q ∈ pre'.map Prod.snd, q ≠ 0 := by
      intro q hq
      exact hports q (by simp [hq])
    simp only [List.cons_append]
    cases hres2 : recGet M nameToId with
    | none =>
      left
      exact ⟨⟨noIdMsg M QM, by rw [resolveNames, hres2]⟩,
             ⟨noIdMsg M QM, by rw [resolveNames, hres2]⟩⟩
    | some cid =>
      by_cases hcid : cid = ""
      · left
        refine ⟨⟨noIdMsg M QM, ?_⟩, ⟨noIdMsg M QM, ?_⟩⟩ <;>
          (rw [resolveNames, hres2]; dsimp only; rw [if_pos hcid])
      · by_cases hcx : cid = X
        · subst hcx
          have eB : resolveNames nameToId mB ((M, QM) :: (pre' ++ post)) =
              .error (conflictMsg M QM cid P) := by
            rw [resolveNames, hres2]; dsimp only; rw [if_neg hcid, hXB]
            dsimp only; rw [if_pos hP]
          have eA1 : resolveNames nameToId mA ((M, QM) :: (pre' ++ (N, P) :: post)) =
              resolveNames nameToId (recSet cid QM mA) (pre' ++ (N, P) :: post) := by
            rw [resolveNames, hres2]; dsimp only; rw [if_neg hcid, hXA]
          obtain ⟨e, he⟩ := resolveNames_stuck_on_bound nameToId cid N P QM hres hQM
            (pre' ++ (N, P) :: post) (recSet cid QM mA)
            (recGet_recSet_self cid QM mA) (by simp)
          left
          exact ⟨⟨e, by rw [eA1]; exact he⟩, ⟨conflictMsg M QM cid P, eB⟩⟩
        · have hsame : recGet cid mA = recGet cid mB := hoff cid hcx
          cases hb : recGet cid mA with
          | some q =>
            have hb₂ : recGet cid mB = some q := hsame.symm.trans hb
            by_cases hq : q ≠ 0
            · left
              refine ⟨⟨conflictMsg M QM cid q, ?_⟩, ⟨conflictMsg M QM cid q, ?_⟩⟩
              · rw [resolveNames, hres2]; dsimp only; rw [if_neg hcid, hb]
                dsimp only; rw [if_pos hq]
              · rw [resolveNames, hres2]; dsimp only; rw [if_neg hcid, hb₂]
                dsimp only; rw [if_pos hq]
            · have eA : resolveNames nameToId mA ((M, QM) :: (pre' ++ (N, P) :: post)) =
                  resolveNames nameToId (recSet cid QM mA) (pre' ++ (N, P) :: post) := by
                rw [resolveNames, hres2]; dsimp only; rw [if_neg hcid, hb]
                dsimp only; rw [if_neg hq]
              have eB : resolveNames nameToId mB ((M, QM) :: (pre' ++ post)) =
                  resolveNames nameToId (recSet cid QM mB) (pre' ++ post) := by
                rw [resolveNames, hres2]; dsimp only; rw [if_neg hcid, hb₂]
                dsimp only; rw [if_neg hq]
              rw [eA, eB]
              apply ih post (recSet cid QM mA) (recSet cid QM mB) ?_ ?_ ?_ hports'
              · intro k hk
                by_cases hkc : k = cid
                · subst hkc
                  rw [recGet_recSet_self, recGet_recSet_self]
                · rw [recGet_recSet_ne cid k hkc, recGet_recSet_ne cid k hkc,
                    hoff k hk]
              · rw [recGet_recSet_ne cid X (Ne.symm hcx) QM mA]
                exact hXA
              · rw [recGet_recSet_ne cid X (Ne.symm hcx) QM mB]
                exact hXB
          | none =>
            have hb₂ : recGet cid mB = none := hsame.symm.trans hb
            have eA : resolveNames nameToId mA ((M, QM) :: (pre' ++ (N, P) :: post)) =
                resolveNames nameToId (recSet cid QM mA) (pre' ++ (N, P) :: post) := by
              rw [resolveNames, hres2]; dsimp only; rw [if_neg hcid, hb]
            have eB : resolveNames nameToId mB ((M, QM) :: (pre' ++ post)) =
                resolveNames nameToId (recSet cid QM mB) (pre' ++ post) := by
              rw [resolveNames, hres2]; dsimp only; rw [if_neg hcid, hb₂]
            rw [eA, eB]
            apply ih post (recSet cid QM mA) (recSet cid QM mB) ?_ ?_ ?_ hports'
            · intro k hk
              by_cases hkc : k = cid
              · subst hkc
                rw [recGet_recSet_self, recGet_recSet_self]
              · rw [recGet_recSet_ne cid k hkc, recGet_recSet_ne cid k hkc,
                  hoff k hk]
            · rw [recGet_recSet_ne cid X (Ne.symm hcx) QM mA]
              exact hXA
            · rw [recGet_recSet_ne cid X (Ne.symm hcx) QM mB]
              exact hXB

/-- C2 witness: the theorem applied to the lookup table `{n → X}`, the
identifier-keyed set `{a → 1}`, and the single name binding `n:5`. -/
theorem resolveNames_by_name_matches_by_id_witness :
    ((∃ e₁, resolveNames [("n", "X")] [("a", 1)] [("n", 5)] = .error e₁) ∧
     (∃ e₂, resolveNames [("n", "X")] (recSet "X" 5 [("a", 1)]) [] = .error e₂)) ∨
    (∃ r₁ r₂, resolveNames [("n", "X")] [("a", 1)] [("n", 5)] = .ok r₁ ∧
      resolveNames [("n", "X")] (recSet "X" 5 [("a", 1)]) [] = .ok r₂ ∧
      ∀ k, recGet k r₁ = recGet k r₂) :=
  resolveNames_by_name_matches_by_id [("n", "X")] "n" "X" 5 (by decide) (by decide)
    (by decide) [] [] [("a", 1)] (recSet "X" 5 [("a", 1)])
    (by intro k hk; rw [recGet_recSet_ne "X" k hk 5 [("a", (1 : Int))]])
    (by decide) (by decide) (by simp)
